import Mathlib

set_option maxRecDepth 8000

namespace RecipeScraper

/-!
Shallow embedding of `recipe_scraper.py` (hcustod/hanks-cooking-compendium).
Strings are manipulated as `List Char`; Python values are the `Json` inductive
below; Python exceptions are modelled with `Except String`.  Recursions are
written structurally (with an explicit fuel argument where the source recursion
is not structural) so that every definition evaluates by kernel reduction.
-/

/-- Model of the character set Python's `str.strip()` removes and the Unicode
regex class for whitespace matches (Python `str.isspace` characters). -/
def pyIsSpace (c : Char) : Bool :=
  c = ' ' || c = '\t' || c = '\n' || c = '\x0b' || c = '\x0c' || c = '\r' ||
  c = '\x1c' || c = '\x1d' || c = '\x1e' || c = '\x1f' || c = '\u0085' ||
  c = '\u00a0' || c = '\u1680' ||
  ('\u2000' ≤ c && c ≤ '\u200a') ||
  c = '\u2028' || c = '\u2029' || c = '\u202f' || c = '\u205f' || c = '\u3000'

/-- Trailing-whitespace removal on a character list. -/
def dropTrailingSpace (cs : List Char) : List Char :=
  ((cs.reverse).dropWhile pyIsSpace).reverse

/-- Model of Python `str.strip()` on a character list. -/
def pyStripChars (cs : List Char) : List Char :=
  dropTrailingSpace (cs.dropWhile pyIsSpace)

/-- Model of Python `str.strip()`. -/
def pyStrip (s : String) : String :=
  String.mk (pyStripChars s.data)

example : pyStrip " a b " = "a b" := by decide

/-- The horizontal-whitespace class of `clean_text` step 5: space, tab,
form feed, vertical tab. -/
def isHWs (c : Char) : Bool :=
  c = ' ' || c = '\t' || c = '\x0c' || c = '\x0b'

/-- Model of step 5 of `clean_text` (`re.sub` of one-or-more horizontal
whitespace with a single space): every maximal run becomes one space.
The Boolean flag records whether we are inside a run whose single
replacement space has already been emitted. -/
def collapseGo (inRun : Bool) : List Char → List Char
  | [] => []
  | c :: rest =>
    if isHWs c then
      if inRun then collapseGo true rest else ' ' :: collapseGo true rest
    else c :: collapseGo false rest

/-- Collapse runs of horizontal whitespace to a single space. -/
def collapseChars (cs : List Char) : List Char :=
  collapseGo false cs

example : collapseChars " a \t b".data = " a b".data := by decide

/-- The zero-width characters removed by step 4 of `clean_text`
(`_ZERO_WIDTH` in the source: zero-width space, zero-width non-joiner,
zero-width joiner, byte-order mark). -/
def isZeroWidth (c : Char) : Bool :=
  c = '\u200b' || c = '\u200c' || c = '\u200d' || c = '\ufeff'

/-- Model of the four `s.replace(z, "")` calls of `clean_text` step 4. -/
def removeZeroWidthChars (cs : List Char) : List Char :=
  cs.filter (fun c => !isZeroWidth c)

/-- Model of the non-breaking-space replacement in `clean_text` step 4
(replace each U+00A0 with an ordinary space). -/
def replaceNbspChars (cs : List Char) : List Char :=
  cs.map (fun c => if c = '\u00a0' then ' ' else c)

mutual

/-- Model of the `text_content()` call in `_strip_html_tags`: characters
between matching angle brackets are markup and are dropped, everything else
is text content. -/
def stripTagsChars : List Char → List Char
  | [] => []
  | c :: rest => if c = '<' then stripTagsInTag rest else c :: stripTagsChars rest

/-- Inside a tag: drop characters until the closing angle bracket. -/
def stripTagsInTag : List Char → List Char
  | [] => []
  | c :: rest => if c = '>' then stripTagsChars rest else stripTagsInTag rest

end

/-- Model of `_strip_html_tags`: only strings containing both angle brackets
are parsed; others are returned unchanged (source lines 36-42). -/
def strip_html_tags (s : String) : String :=
  if s.data.contains '<' && s.data.contains '>' then
    String.mk (stripTagsChars s.data)
  else s

example : strip_html_tags "a <b>bold</b> c" = "a bold c" := by decide

/-- Model of Unicode canonical composition for the NFC normalization step,
restricted to a representative table of base-plus-combining-mark pairs
(acute U+0301 and grave U+0300 on the bases `a` and `e`). -/
def composePair (c₁ c₂ : Char) : Option Char :=
  if c₂ = '\u0301' then
    if c₁ = 'e' then some 'é' else if c₁ = 'a' then some 'á' else none
  else if c₂ = '\u0300' then
    if c₁ = 'e' then some 'è' else if c₁ = 'a' then some 'à' else none
  else none

/-- Composition pass of the NFC model.  The fuel argument only makes the
recursion structural; it is always called with enough fuel. -/
def nfcGo : Nat → List Char → List Char
  | 0, cs => cs
  | _ + 1, [] => []
  | _ + 1, [c] => [c]
  | fuel + 1, c₁ :: c₂ :: rest =>
    match composePair c₁ c₂ with
    | some d => nfcGo fuel (d :: rest)
    | none => c₁ :: nfcGo fuel (c₂ :: rest)

/-- Model of the NFC normalization in `clean_text` step 3. -/
def nfcChars (cs : List Char) : List Char :=
  nfcGo cs.length cs

example : nfcChars ['e', '\u0301'] = ['é'] := by decide

/-- Entity table modelling a representative subset of the HTML5 named
character references known to `html.unescape`, every name listed with and
without its trailing semicolon, the semicolon-bearing form first so that it
is preferred. -/
def entityTable : List (String × String) :=
  [("eacute;", "é"), ("eacute", "é"),
   ("nbsp;", "\u00a0"), ("nbsp", "\u00a0"),
   ("quot;", "\""), ("quot", "\""),
   ("amp;", "&"), ("amp", "&"),
   ("lt;", "<"), ("lt", "<"),
   ("gt;", ">"), ("gt", ">"),
   ("#39;", "'")]

/-- Look the text after an ampersand up in an entity table: the first key
that is a prefix of the remaining input wins, and the replacement text is
returned with the input after the key. -/
def lookupEntity : List (String × String) → List Char → Option (String × List Char)
  | [], _ => none
  | (k, v) :: tbl, cs =>
    if k.data.isPrefixOf cs then some (v, cs.drop k.data.length)
    else lookupEntity tbl cs

/-- Scanning pass of the `html.unescape` model: at each ampersand, try to
read a character reference from the entity table.  Fuel only makes the
recursion structural (each step consumes at least one character). -/
def unescGo : Nat → List Char → List Char
  | 0, cs => cs
  | _ + 1, [] => []
  | fuel + 1, c :: rest =>
    if c = '&' then
      match lookupEntity entityTable rest with
      | some (repl, rest') => repl.data ++ unescGo fuel rest'
      | none => '&' :: unescGo fuel rest
    else c :: unescGo fuel rest

/-- Model of the `ihtml.unescape` call (step 1 of `clean_text`). -/
def unescapeChars (cs : List Char) : List Char :=
  unescGo cs.length cs

example : String.mk (unescapeChars "&amp;amp;".data) = "&amp;" := by decide

/-- Model of `clean_text` (source lines 44-60): unescape HTML entities,
strip inline tags, NFC-normalize, remove zero-width characters, replace
non-breaking spaces, collapse horizontal whitespace, trim.  The source's
`if s is None` guard is unreachable here because every caller passes a
string. -/
def clean_text (s : String) : String :=
  let s1 := unescapeChars s.data
  let s2 := (strip_html_tags (String.mk s1)).data
  let s3 := nfcChars s2
  let s4 := removeZeroWidthChars s3
  let s5 := replaceNbspChars s4
  let s6 := collapseChars s5
  String.mk (pyStripChars s6)

example : clean_text "  Caf&eacute;\u200b  Time " = "Café Time" := by decide
example : clean_text "&amp;amp;" = "&amp;" := by decide
example : clean_text "&amp;" = "&" := by decide

/-- JSON-like Python values flowing through the scraper: `None`, booleans,
numbers (modelled as integers), strings, lists and dicts (dicts as key-value
lists, first occurrence of a key winning, as Python dict keys are unique). -/
inductive Json where
  | null
  | bool (b : Bool)
  | num (n : Int)
  | str (s : String)
  | arr (xs : List Json)
  | obj (kvs : List (String × Json))

/-- Python truthiness of a value (`if x`, `x or y`). -/
def truthy : Json → Bool
  | .null => false
  | .bool b => b
  | .num n => n ≠ 0
  | .str s => s ≠ ""
  | .arr xs => !xs.isEmpty
  | .obj kvs => !kvs.isEmpty

/-- Python `a or b`: the first operand when truthy, the second otherwise. -/
def pyOr (a b : Json) : Json :=
  if truthy a then a else b

/-- First value stored under a key, if the key is present (`k in d`). -/
def getKey? : List (String × Json) → String → Option Json
  | [], _ => none
  | (k, v) :: kvs, key => if k = key then some v else getKey? kvs key

/-- Model of Python `d.get(k)`: the stored value, or `None` when absent. -/
def pyGet (kvs : List (String × Json)) (key : String) : Json :=
  (getKey? kvs key).getD .null

/-- Python `repr` of a string: single quotes, switching to double quotes
when the text contains a single quote but no double quote. -/
def pyReprStr (s : String) : String :=
  if s.data.contains '\'' && !(s.data.contains '"') then
    "\"" ++ s ++ "\""
  else
    "'" ++ s ++ "'"

mutual

/-- Model of Python `repr` on JSON-like values (used by `str` on containers). -/
def pyRepr : Json → String
  | .null => "None"
  | .bool b => if b then "True" else "False"
  | .num n => toString n
  | .str s => pyReprStr s
  | .arr xs => "[" ++ pyReprList xs ++ "]"
  | .obj kvs => "\x7b" ++ pyReprKVs kvs ++ "\x7d"
termination_by structural j => j

/-- Comma-separated reprs of list elements. -/
def pyReprList : List Json → String
  | [] => ""
  | [x] => pyRepr x
  | x :: xs => pyRepr x ++ ", " ++ pyReprList xs
termination_by structural xs => xs

/-- Comma-separated reprs of dict entries. -/
def pyReprKVs : List (String × Json) → String
  | [] => ""
  | [(k, v)] => pyReprStr k ++ ": " ++ pyRepr v
  | (k, v) :: kvs => pyReprStr k ++ ": " ++ pyRepr v ++ ", " ++ pyReprKVs kvs
termination_by structural kvs => kvs

end

/-- Model of Python `str(x)`: a string is returned as itself, every other
value prints as its repr. -/
def pyStr : Json → String
  | .str s => s
  | j => pyRepr j

example : pyStr (.arr [.num 1, .str "a"]) = "[1, 'a']" := rfl
example : pyStr (.obj [("k", .null)]) = "\x7b'k': None\x7d" := rfl

mutual

/-- Model of `deep_clean` (source lines 62-72): clean every string with
`clean_text`, recurse through lists and dicts, pass other scalars through. -/
def deep_clean : Json → Json
  | .str s => .str (clean_text s)
  | .arr xs => .arr (deepCleanList xs)
  | .obj kvs => .obj (deepCleanKVs kvs)
  | j => j

/-- List branch of `deep_clean`: clean the elements, then drop elements
that are strings and became empty. -/
def deepCleanList : List Json → List Json
  | [] => []
  | x :: xs =>
    let v := deep_clean x
    let rest := deepCleanList xs
    match v with
    | .str t => if t = "" then rest else .str t :: rest
    | _ => v :: rest

/-- Dict branch of `deep_clean`: keys kept, values cleaned. -/
def deepCleanKVs : List (String × Json) → List (String × Json)
  | [] => []
  | (k, v) :: kvs => (k, deep_clean v) :: deepCleanKVs kvs

end

example :
    deep_clean (.obj [("a", .arr [.str " x ", .str "  ", .num 3])]) =
      .obj [("a", .arr [.str "x", .num 3])] := rfl

/-- Numeric value of a string of decimal digits (Python `int`). -/
def natOfDigits (ds : List Char) : Nat :=
  ds.foldl (fun n c => 10 * n + (c.toNat - '0'.toNat)) 0

/-- One optional component of the ISO duration regex: `(\d+)X` for marker
character `X`.  The component matches only when at least one digit is
present and the marker follows; otherwise the input is left untouched. -/
def parseComp (marker : Char) (cs : List Char) : Option Nat × List Char :=
  let ds := cs.takeWhile Char.isDigit
  let rest := cs.dropWhile Char.isDigit
  if ds = [] then (none, cs)
  else
    match rest with
    | c :: r => if c = marker then (some (natOfDigits ds), r) else (none, cs)
    | [] => (none, cs)

/-- Model of the anchored regex `_ISO_DUR` (source line 98): the ISO-8601
duration subset with day, hour, minute and second components, each
optional, returning the four captured numbers (an unmatched group is 0,
as the source reads each group with `or 0`). -/
def parseIsoDur (s : String) : Option (Nat × Nat × Nat × Nat) :=
  match s.data with
  | 'P' :: rest =>
    let (d, rest₁) := parseComp 'D' rest
    match rest₁ with
    | 'T' :: restT =>
      let (h, r₁) := parseComp 'H' restT
      let (m, r₂) := parseComp 'M' r₁
      let (sec, r₃) := parseComp 'S' r₂
      if r₃ = [] then some (d.getD 0, h.getD 0, m.getD 0, sec.getD 0) else none
    | [] => some (d.getD 0, 0, 0, 0)
    | _ => none
  | _ => none

example : parseIsoDur "PT1H30M" = some (0, 1, 30, 0) := by decide
example : parseIsoDur "P1DT2H" = some (1, 2, 0, 0) := by decide
example : parseIsoDur "P" = some (0, 0, 0, 0) := by decide
example : parseIsoDur "PT90X" = none := by decide

/-- Word characters for the regex word-boundary assertion, modelled on the
ASCII subset of Python's Unicode word class. -/
def isWordChar (c : Char) : Bool :=
  c.isAlphanum || c = '_'

/-- A word boundary holds after a word character when the remaining input
is empty or starts with a non-word character. -/
def boundaryOk : List Char → Bool
  | [] => true
  | c :: _ => !isWordChar c

/-- Case-insensitive prefix test against a lowercase needle (the
human-duration regex carries the ignore-case flag). -/
def ciIsPrefixOf (needle : List Char) (hay : List Char) : Bool :=
  (hay.take needle.length).map Char.toLower = needle

/-- Try the suffix alternatives of a unit word in the greedy order of the
regex alternation; the first alternative followed by a word boundary wins. -/
def trySuffixes : List String → List Char → Option (List Char)
  | [], _ => none
  | sfx :: more, cs =>
    if ciIsPrefixOf sfx.data cs && boundaryOk (cs.drop sfx.data.length) then
      some (cs.drop sfx.data.length)
    else trySuffixes more cs

/-- One optional group `(\d+)\s*<unit><suffixes>` with a trailing word
boundary, matched at the head of the input (digits and the whitespace run
are maximal, which the regex grammar forces here).  On failure the group is
skipped and the input left untouched. -/
def matchUnitGroup (unit : Char) (suffixes : List String) (cs : List Char) :
    Option Nat × List Char :=
  let ds := cs.takeWhile Char.isDigit
  let rest := (cs.dropWhile Char.isDigit).dropWhile pyIsSpace
  if ds = [] then (none, cs)
  else
    match rest with
    | c :: r =>
      if c.toLower = unit then
        match trySuffixes suffixes r with
        | some r' => (some (natOfDigits ds), r')
        | none => (none, cs)
      else (none, cs)
    | [] => (none, cs)

/-- Model of `_HUMAN_DUR.search(s)` (source line 99): every group of the
pattern is optional, so the pattern matches at position 0 of every string
and the search is the greedy match there; the three captured numbers are
returned. -/
def matchHumanDur (s : String) : Option Nat × Option Nat × Option Nat :=
  let cs := s.data
  let (d, cs₁) := matchUnitGroup 'd' ["ays", "ay", ""] cs
  let cs₁' := cs₁.dropWhile pyIsSpace
  let (h, cs₂) := matchUnitGroup 'h' ["ours", "our", "rs", "r", ""] cs₁'
  let cs₂' := cs₂.dropWhile pyIsSpace
  let (m, _) := matchUnitGroup 'm' ["ins", "inutes", "in", ""] cs₂'
  (d, h, m)

example : matchHumanDur "1d 2h 3m" = (some 1, some 2, some 3) := by decide
example : matchHumanDur "90 minutes" = (none, none, some 90) := by decide
example : matchHumanDur "about 90 minutes" = (none, none, none) := by decide

/-- Model of `_minutes` (source lines 101-118).  A falsy argument returns
`None`; a truthy non-string raises `AttributeError` at `iso_like.strip()`;
otherwise the ISO-8601 grammar is tried first and the permissive
human-duration matcher second, with a zero total turned into `None` by
`total or None`.  The source's final `return None` is unreachable because
the all-optional human pattern always matches. -/
def _minutes (iso_like : Json) : Except String (Option Nat) :=
  if !truthy iso_like then .ok none
  else
    match iso_like with
    | .str s0 =>
      let s := pyStrip s0
      match parseIsoDur s with
      | some (d, h, m, sec) =>
        let total := d * 1440 + h * 60 + m + sec / 60
        .ok (if total = 0 then none else some total)
      | none =>
        let (d, h, mi) := matchHumanDur s
        let total := (d.getD 0) * 1440 + (h.getD 0) * 60 + mi.getD 0
        .ok (if total = 0 then none else some total)
    | _ => .error "AttributeError: strip"

example : _minutes (.str "PT1H30M") = .ok (some 90) := rfl
example : _minutes (.str "P1DT2H") = .ok (some 1560) := rfl
example : _minutes (.str "PT0M") = .ok none := rfl
example : _minutes (.str "2h 15m") = .ok (some 135) := rfl
example : _minutes .null = .ok none := rfl
example : _minutes (.num 90) = .error "AttributeError: strip" := rfl

/-- Model of `_coerce_list` (source lines 83-86): `None` becomes the empty
list, a list stays itself, any other value becomes a singleton. -/
def _coerce_list : Json → List Json
  | .null => []
  | .arr xs => xs
  | v => [v]

/-- The element collection pass of `_as_text_list` (line 90-94): a dict
carrying a `text` key contributes that value, everything else its string
form. -/
def textListRaw (maybe_list : Json) : List Json :=
  (_coerce_list maybe_list).map fun x =>
    match x with
    | .obj kvs =>
      if (getKey? kvs "text").isSome then pyGet kvs "text" else .str (pyStr x)
    | _ => .str (pyStr x)

/-- The final comprehension of `_as_text_list` (line 95): keep entries that
are truthy and whose string form strips to something non-empty, stripped.
Stripping a truthy non-string entry raises `AttributeError`. -/
def stripTruthyList : List Json → Except String (List String)
  | [] => .ok []
  | s :: rest =>
    if truthy s && pyStrip (pyStr s) ≠ "" then
      match s with
      | .str t => do
        let r ← stripTruthyList rest
        .ok (pyStrip t :: r)
      | _ => .error "AttributeError: strip"
    else stripTruthyList rest

/-- Model of `_as_text_list` (source lines 88-95). -/
def _as_text_list (maybe_list : Json) : Except String (List String) :=
  stripTruthyList (textListRaw maybe_list)

example : _as_text_list (.arr [.str " 1 cup flour ", .obj [("text", .str "2 eggs")], .num 3]) =
    .ok ["1 cup flour", "2 eggs", "3"] := rfl
example : _as_text_list (.str "salt") = .ok ["salt"] := rfl
example : _as_text_list (.arr [.obj [("text", .num 5)]]) = .error "AttributeError: strip" := rfl

mutual

/-- Structural size of a JSON value, used as fuel for the instruction
walker (whose recursion descends through dict lookups). -/
def jsize : Json → Nat
  | .null => 1
  | .bool _ => 1
  | .num _ => 1
  | .str _ => 1
  | .arr xs => 1 + jsizeList xs
  | .obj kvs => 1 + jsizeKVs kvs
termination_by structural j => j

/-- Combined size of list elements. -/
def jsizeList : List Json → Nat
  | [] => 0
  | x :: xs => jsize x + jsizeList xs
termination_by structural xs => xs

/-- Combined size of dict values. -/
def jsizeKVs : List (String × Json) → Nat
  | [] => 0
  | (_, v) :: kvs => jsize v + jsizeKVs kvs
termination_by structural kvs => kvs

end

/-- Model of `add_text` (source lines 166-171): skip `None`, take the
stripped string form, keep it when non-empty. -/
def addText : Json → Option String
  | .null => none
  | v =>
    let s := pyStrip (pyStr v)
    if s = "" then none else some s

/-- Newline split of Python `str.split("\n")`. -/
def splitNlChars : List Char → List (List Char)
  | [] => [[]]
  | c :: rest =>
    if c = '\n' then [] :: splitNlChars rest
    else
      match splitNlChars rest with
      | g :: gs => (c :: g) :: gs
      | [] => [[c]]

mutual

/-- Model of `_extract_instructions` (source lines 162-191).  The fuel
argument only makes the recursion (which descends into the value stored
under `itemListElement`) structural; `_extract_instructions` below supplies
sufficient fuel.  A string is split on newlines into trimmed non-empty
steps; a list is walked element-wise; other shapes yield no steps. -/
def extractGo : Nat → Json → List String
  | 0, _ => []
  | _ + 1, .str s =>
    ((splitNlChars s.data).filterMap fun l =>
      let t := pyStripChars l
      if t = [] then none else some (String.mk t)).filter (fun t => t ≠ "")
  | fuel + 1, .arr xs => (extractListGo fuel xs).filter (fun t => t ≠ "")
  | _ + 1, _ => []

/-- Element walk of the list branch: a dict carrying `itemListElement` is a
section and is recursed into; any other dict contributes its `text` or
`name` field; a scalar contributes its string form. -/
def extractListGo : Nat → List Json → List String
  | 0, _ => []
  | _ + 1, [] => []
  | fuel + 1, it :: rest =>
    (match it with
     | .obj kvs =>
       match getKey? kvs "itemListElement" with
       | some v => extractGo fuel v
       | none => (addText (pyOr (pyGet kvs "text") (pyGet kvs "name"))).toList
     | _ => (addText it).toList) ++ extractListGo fuel rest

end

/-- Model of `_extract_instructions` at adequate fuel. -/
def _extract_instructions (instr : Json) : List String :=
  extractGo (jsize instr) instr

example : _extract_instructions (.str "Mix.\n\n Bake. \n") = ["Mix.", "Bake."] := rfl
example :
    _extract_instructions
      (.arr [.obj [("@type", .str "HowToStep"), ("text", .str "Mix")],
             .obj [("name", .str "Bake")],
             .str "Serve"]) = ["Mix", "Bake", "Serve"] := rfl
example :
    _extract_instructions
      (.arr [.obj [("@type", .str "HowToSection"),
                   ("itemListElement",
                    .arr [.obj [("text", .str "A")], .obj [("text", .str "B")],
                          .obj [("text", .str "C")]])]]) = ["A", "B", "C"] := rfl
example : _extract_instructions (.num 7) = [] := rfl

/-- Dict members of a `@graph` list attached to a JSON-LD object
(source lines 126-130 and 134-139): present only when the `@graph` value is
a list, and only its dict elements are yielded. -/
def graphMembers (kvs : List (String × Json)) : List (List (String × Json)) :=
  match getKey? kvs "@graph" with
  | some (.arr items) =>
    items.filterMap fun it =>
      match it with
      | .obj ikvs => some ikvs
      | _ => none
  | _ => []

/-- Model of `_iter_jsonld_objects` (source lines 121-139): yield every
dict-like JSON-LD object in document order, expanding a top-level list one
level and flattening `@graph` members in after their carrier. -/
def _iter_jsonld_objects (jsonld_list : List Json) : List (List (String × Json)) :=
  jsonld_list.flatMap fun block =>
    match block with
    | .obj kvs => kvs :: graphMembers kvs
    | .arr bs =>
      bs.flatMap fun b =>
        match b with
        | .obj kvs => kvs :: graphMembers kvs
        | _ => []
    | _ => []

/-- The JSON-LD match test of `parse_structured` (source lines 151-152):
the `@type` field equals `"Recipe"`, or is a list containing `"Recipe"`. -/
def isRecipeTyped (kvs : List (String × Json)) : Bool :=
  match pyGet kvs "@type" with
  | .str s => s = "Recipe"
  | .arr xs =>
    xs.any fun j =>
      match j with
      | .str s => s = "Recipe"
      | _ => false
  | _ => false

/-- Membership test `"Recipe" in _coerce_list(types)` of the
microdata/RDFa loop; Python equality between a string and a non-string is
false. -/
def containsRecipe (types : Json) : Bool :=
  (_coerce_list types).any fun j =>
    match j with
    | .str s => s = "Recipe"
    | _ => false

/-- One syntax of the microdata/RDFa loop of `parse_structured` (source
lines 155-159): scan items in document order for one whose coerced type
list contains `"Recipe"`; calling `.get` on a non-dict item raises. -/
def findSyntaxRecipe : List Json → Except String (Option Json)
  | [] => .ok none
  | item :: rest =>
    match item with
    | .obj kvs =>
      if containsRecipe (pyOr (pyGet kvs "@type") (.arr [])) then .ok (some (.obj kvs))
      else findSyntaxRecipe rest
    | _ => .error "AttributeError: get"

/-- The output of the `extruct.extract` call in `parse_structured`: one
candidate list per syntax in the uniform format.  The HTML parsing
performed by the extruct library is outside the embedding; its result is
the input here. -/
structure ExtructData where
  jsonld : List Json
  microdata : List Json
  rdfa : List Json

/-- Model of `parse_structured` after the `extruct.extract` call (source
lines 141-160): JSON-LD candidates first, then microdata, then RDFa; the
first candidate typed `Recipe` wins; no match yields `None`. -/
def parse_structured (data : ExtructData) : Except String (Option Json) := do
  match (_iter_jsonld_objects data.jsonld).find? isRecipeTyped with
  | some kvs => return some (.obj kvs)
  | none =>
    match ← findSyntaxRecipe data.microdata with
    | some item => return some item
    | none =>
      match ← findSyntaxRecipe data.rdfa with
      | some item => return some item
      | none => return none

/-- Position after the first `://` in a URL, if any. -/
def afterSchemeSep : List Char → Option (List Char)
  | [] => none
  | ':' :: '/' :: '/' :: rest => some rest
  | _ :: rest => afterSchemeSep rest

/-- Model of `urlparse(final_url).hostname`, simplified to the common
`scheme://authority/path` shape: the authority runs to the first slash,
question mark or hash; userinfo before the last at-sign and the port after
a colon are removed; the host is lowercased; an empty host is `None`. -/
def hostname (url : String) : Json :=
  match afterSchemeSep url.data with
  | none => .null
  | some rest =>
    let netloc := rest.takeWhile fun c => !(c = '/' || c = '?' || c = '#')
    let afterAt := (netloc.reverse.takeWhile (fun c => c ≠ '@')).reverse
    let host := (afterAt.takeWhile fun c => c ≠ ':').map Char.toLower
    if host = [] then .null else .str (String.mk host)

example : hostname "https://WWW.Example.com:8080/r?x=1" = .str "www.example.com" := rfl
example : hostname "not a url" = .null := rfl

/-- The fixed advisory text attached to every record (source lines 28-30). -/
def LEGAL_NOTE : String :=
  "For personal use/research only. Do not republish; see the original source link."

/-- Duration field representation: `None` or the number of minutes. -/
def minutesJson : Option Nat → Json
  | none => .null
  | some n => .num n

/-- Model of `normalize_recipe` (source lines 193-219).  Subterms are
evaluated in the order of the source (the two fallible statements at lines
199 and 205, then the dict values in key order), so the first raising
subexpression decides the exception. -/
def normalize_recipe (recipe_obj : List (String × Json)) (final_url : String) :
    Except String Json := do
  let title := pyOr (pyGet recipe_obj "name")
      (pyOr (pyGet recipe_obj "headline") (.str "Untitled"))
  let desc := pyGet recipe_obj "description"
  let servingsStr := pyStr (pyOr (pyGet recipe_obj "recipeYield") (.str ""))
  let servings : Json := if servingsStr = "" then .null else .str servingsStr
  let ingredients ← _as_text_list
      (pyOr (pyGet recipe_obj "recipeIngredient") (pyGet recipe_obj "ingredients"))
  let steps := _extract_instructions (pyGet recipe_obj "recipeInstructions")
  let titleStr ← match title with
    | .str t => Except.ok (pyStrip t)
    | _ => Except.error "AttributeError: strip"
  let prep ← _minutes (pyGet recipe_obj "prepTime")
  let cook ← _minutes (pyGet recipe_obj "cookTime")
  let total ← _minutes (pyGet recipe_obj "totalTime")
  return deep_clean (.obj
    [("title", .str titleStr),
     ("description", pyOr desc .null),
     ("servings", servings),
     ("prep_time_min", minutesJson prep),
     ("cook_time_min", minutesJson cook),
     ("total_time_min", minutesJson total),
     ("image_url", .null),
     ("ingredients", .arr ((ingredients.filter fun i => pyStrip i ≠ "").map Json.str)),
     ("steps", .arr ((steps.filter fun st => pyStrip st ≠ "").map Json.str)),
     ("source_url", .str final_url),
     ("source_host", hostname final_url),
     ("extraction", .str "structured"),
     ("legal_note", .str LEGAL_NOTE)])

/-- The unit-token lexicon of the fallback ingredient heuristic
(source lines 233-236). -/
def unitTokens : List String :=
  ["cup", "cups", "tsp", "tbsp", "teaspoon", "tablespoon",
   "g", "gram", "kg", "ml", "l", "oz", "ounce", "lb"]

/-- Inputs that the readability and lxml libraries derive from the page in
`readability_fallback` (source lines 228-243): the short title and the text
content of each list-item and paragraph node, in document order.  The HTML
parsing itself is outside the embedding; its result is the input here. -/
structure PageModel where
  shortTitle : String
  liTexts : List String
  pTexts : List String

/-- Contiguous-sublist test on character lists. -/
def listIsInfix (needle : List Char) : List Char → Bool
  | [] => needle.isEmpty
  | c :: rest => needle.isPrefixOf (c :: rest) || listIsInfix needle rest

/-- Python substring test `tok in text`. -/
def containsSubstr (text tok : String) : Bool :=
  listIsInfix tok.data text.data

/-- Python `str.lower()`, modelled on ASCII letters. -/
def pyLower (s : String) : String :=
  String.mk (s.data.map Char.toLower)

/-- Word counting for `len(text.split()) > 5`: the number of maximal
non-whitespace runs.  The flag records whether the previous character was a
boundary. -/
def countWordsGo (atBoundary : Bool) : List Char → Nat
  | [] => 0
  | c :: rest =>
    if pyIsSpace c then countWordsGo true rest
    else (if atBoundary then 1 else 0) + countWordsGo false rest

/-- Number of words of Python `str.split()` with no separator. -/
def countWords (cs : List Char) : Nat :=
  countWordsGo true cs

example : countWords "  one two  three ".data = 3 := by decide

/-- Model of `readability_fallback` (source lines 221-260) after the byte
decoding and the readability/lxml calls: the title defaults to "Untitled"
and is trimmed; ingredient candidates are trimmed list items containing a
unit token; steps are paragraphs of more than five words, trimmed; both
capped at 50; durations and servings are absent; the record is deep
cleaned. -/
def readability_fallback (page : PageModel) (final_url : String) : Json :=
  let title := pyStrip (if page.shortTitle = "" then "Untitled" else page.shortTitle)
  let candidates := page.liTexts.map pyStrip
  let ingredients := candidates.filter fun c =>
    unitTokens.any fun tok => containsSubstr (pyLower c) tok
  let steps := (page.pTexts.filter fun t => countWords t.data > 5).map pyStrip
  deep_clean (.obj
    [("title", .str title),
     ("description", .null),
     ("servings", .null),
     ("prep_time_min", .null),
     ("cook_time_min", .null),
     ("total_time_min", .null),
     ("image_url", .null),
     ("ingredients", .arr ((ingredients.take 50).map Json.str)),
     ("steps", .arr ((steps.take 50).map Json.str)),
     ("source_url", .str final_url),
     ("source_host", hostname final_url),
     ("extraction", .str "readability"),
     ("legal_note", .str LEGAL_NOTE)])

/-- Model of `scrape` (source lines 262-267) after the network fetch: the
structured path when a truthy structured object was found, the readability
fallback otherwise.  `normalize_recipe` would raise on a truthy non-dict,
but `parse_structured` only ever returns dicts. -/
def scrape (data : ExtructData) (page : PageModel) (final_url : String) :
    Except String Json := do
  match ← parse_structured data with
  | some j =>
    if truthy j then
      match j with
      | .obj kvs => normalize_recipe kvs final_url
      | _ => .error "AttributeError: get"
    else return readability_fallback page final_url
  | none => return readability_fallback page final_url

example :
    normalize_recipe
      [("name", .str " Cake "), ("recipeYield", .num 4),
       ("recipeIngredient", .arr [.str "1 cup flour"]),
       ("recipeInstructions", .str "Mix\nBake"),
       ("prepTime", .str "PT10M")] "https://Ex.com/r" =
    .ok (.obj
      [("title", .str "Cake"),
       ("description", .null),
       ("servings", .str "4"),
       ("prep_time_min", .num 10),
       ("cook_time_min", .null),
       ("total_time_min", .null),
       ("image_url", .null),
       ("ingredients", .arr [.str "1 cup flour"]),
       ("steps", .arr [.str "Mix", .str "Bake"]),
       ("source_url", .str "https://Ex.com/r"),
       ("source_host", .str "ex.com"),
       ("extraction", .str "structured"),
       ("legal_note", .str LEGAL_NOTE)]) := rfl

example : normalize_recipe [("name", .num 5)] "https://ex.com/r" =
    .error "AttributeError: strip" := rfl

example :
    scrape ⟨[.obj [("@type", .str "Recipe"), ("name", .str "A")]], [], []⟩
      ⟨"T", [], []⟩ "https://ex.com/a" =
    normalize_recipe [("@type", .str "Recipe"), ("name", .str "A")] "https://ex.com/a" := rfl

/-- Field access on a record value: the stored value under a key of a dict. -/
def recGet (r : Json) (k : String) : Option Json :=
  match r with
  | .obj kvs => getKey? kvs k
  | _ => none

/-- Key list of a record value, in order. -/
def recKeys (r : Json) : List String :=
  match r with
  | .obj kvs => kvs.map Prod.fst
  | _ => []

/-- The thirteen keys both record builders emit, in source order. -/
def canonicalKeys : List String :=
  ["title", "description", "servings", "prep_time_min", "cook_time_min",
   "total_time_min", "image_url", "ingredients", "steps", "source_url",
   "source_host", "extraction", "legal_note"]

/-- A value whose `.strip()` cannot raise inside `_minutes` or the title
computation: a string, or something falsy (which the source skips). -/
def strOrFalsy : Json → Bool
  | .str _ => true
  | v => !truthy v

/-- The title source of `normalize_recipe` line 194. -/
def titleSource (recipe_obj : List (String × Json)) : Json :=
  pyOr (pyGet recipe_obj "name") (pyOr (pyGet recipe_obj "headline") (.str "Untitled"))

/-- The ingredient source of `normalize_recipe` lines 199-201. -/
def ingredientSource (recipe_obj : List (String × Json)) : Json :=
  pyOr (pyGet recipe_obj "recipeIngredient") (pyGet recipe_obj "ingredients")

/-- Every collected ingredient entry is a string or falsy, so the final
comprehension of `_as_text_list` cannot raise. -/
def textListSafe (maybe_list : Json) : Bool :=
  (textListRaw maybe_list).all strOrFalsy

/-- A list value whose entries are all strings containing at least one
non-whitespace character (no empty and no whitespace-only entries). -/
def entriesClean (o : Option Json) : Prop :=
  ∃ xs, o = some (.arr xs) ∧
    ∀ j ∈ xs, ∃ t : String, j = .str t ∧ t.data.any (fun c => !pyIsSpace c)

/-- Well-formed horizontal whitespace: every horizontal-whitespace character
is a plain space and no two spaces are adjacent (the shape `collapseChars`
produces). -/
def GoodWs (cs : List Char) : Prop :=
  (∀ c ∈ cs, isHWs c → c = ' ') ∧
  List.Chain' (fun a b => ¬(a = ' ' ∧ b = ' ')) cs

theorem getKey?_deepCleanKVs (kvs : List (String × Json)) (k : String) :
    getKey? (deepCleanKVs kvs) k = (getKey? kvs k).map deep_clean := by
  induction kvs with
  | nil => rfl
  | cons kv rest ih =>
    obtain ⟨key, v⟩ := kv
    by_cases hk : key = k
    · simp [deepCleanKVs, getKey?, hk]
    · simp [deepCleanKVs, getKey?, hk, ih]

theorem keys_deepCleanKVs (kvs : List (String × Json)) :
    (deepCleanKVs kvs).map Prod.fst = kvs.map Prod.fst := by
  induction kvs with
  | nil => rfl
  | cons kv rest ih =>
    obtain ⟨key, v⟩ := kv
    simp [deepCleanKVs, ih]

theorem length_deepCleanList_le (xs : List Json) :
    (deepCleanList xs).length ≤ xs.length := by
  induction xs with
  | nil => simp [deepCleanList]
  | cons x rest ih =>
    simp only [deepCleanList]
    cases hv : deep_clean x with
    | str t =>
      by_cases ht : t = ""
      · simp only [ht, if_pos rfl, List.length_cons]
        exact Nat.le_succ_of_le ih
      · simp only [if_neg ht, List.length_cons]
        exact Nat.succ_le_succ ih
    | null => simpa using Nat.succ_le_succ ih
    | bool b => simpa using Nat.succ_le_succ ih
    | num n => simpa using Nat.succ_le_succ ih
    | arr ys => simpa using Nat.succ_le_succ ih
    | obj kvs => simpa using Nat.succ_le_succ ih

/-- C3: for every string whose trimmed form matches the ISO-8601 duration
subset, `_minutes` returns days times 1440 plus hours times 60 plus minutes
plus seconds divided by 60 rounded down, except that a zero total is
returned as absent; in particular the three spec examples hold. -/
theorem c3_minutes_iso_grammar :
    (∀ (s : String) (d h m sec : Nat),
        parseIsoDur (pyStrip s) = some (d, h, m, sec) →
        _minutes (.str s) =
          .ok (if d * 1440 + h * 60 + m + sec / 60 = 0 then none
               else some (d * 1440 + h * 60 + m + sec / 60))) ∧
    _minutes (.str "PT1H30M") = .ok (some 90) ∧
    _minutes (.str "P1DT2H") = .ok (some 1560) ∧
    _minutes (.str "PT0M") = .ok none := by
  refine ⟨?_, rfl, rfl, rfl⟩
  intro s d h m sec hpar
  by_cases hs : s = ""
  · subst hs
    rw [show pyStrip "" = "" from rfl] at hpar
    exact absurd hpar (by rw [show parseIsoDur "" = none from rfl]; simp)
  · simp [_minutes, truthy, hs, hpar]

/-- Witness for C3 at a concrete trimmed ISO string. -/
theorem c3_minutes_iso_grammar_witness : _minutes (.str " PT2H5M ") = .ok (some 125) := by
  have := c3_minutes_iso_grammar.1 " PT2H5M " 0 2 5 0 rfl
  simpa using this

/-- C4: structured-data selection scans JSON-LD candidates first (the first
Recipe-typed one winning), falls to microdata only when JSON-LD has no
match, and on a document carrying both a JSON-LD Recipe and a microdata
Recipe returns the JSON-LD object. -/
theorem c4_syntax_priority :
    (∀ (d : ExtructData) (kvs : List (String × Json)),
        (_iter_jsonld_objects d.jsonld).find? isRecipeTyped = some kvs →
        parse_structured d = .ok (some (.obj kvs))) ∧
    (∀ (d : ExtructData) (item : Json),
        (_iter_jsonld_objects d.jsonld).find? isRecipeTyped = none →
        findSyntaxRecipe d.microdata = .ok (some item) →
        parse_structured d = .ok (some item)) ∧
    parse_structured
        ⟨[.obj [("@type", .str "Recipe"), ("name", .str "JL")]],
         [.obj [("@type", .arr [.str "Recipe"]), ("name", .str "MD")]], []⟩ =
      .ok (some (.obj [("@type", .str "Recipe"), ("name", .str "JL")])) := by
  refine ⟨?_, ?_, rfl⟩
  · intro d kvs hfind
    simp [parse_structured, hfind, pure, Except.pure]
  · intro d item hfind hmicro
    simp [parse_structured, hfind, hmicro, bind, Except.bind, pure, Except.pure]

/-- Witness for C4 with one JSON-LD Recipe and one microdata Recipe. -/
theorem c4_syntax_priority_witness :
    parse_structured
        ⟨[.obj [("@type", .str "Recipe"), ("name", .str "W")]],
         [.obj [("@type", .str "Recipe")]], []⟩ =
      .ok (some (.obj [("@type", .str "Recipe"), ("name", .str "W")])) :=
  c4_syntax_priority.1
    ⟨[.obj [("@type", .str "Recipe"), ("name", .str "W")]],
     [.obj [("@type", .str "Recipe")]], []⟩
    [("@type", .str "Recipe"), ("name", .str "W")] rfl

/-- C5: JSON-LD flattening expands a top-level array one level, yields an
object followed by the dict members of its `@graph` list in document order,
and a document whose top-level object has no Recipe type but whose `@graph`
holds a Recipe-typed node selects that node. -/
theorem c5_graph_flattening :
    (∀ (bs blocks : List Json),
        _iter_jsonld_objects (.arr bs :: blocks) =
          (bs.flatMap fun b =>
            match b with
            | .obj kvs => kvs :: graphMembers kvs
            | _ => []) ++ _iter_jsonld_objects blocks) ∧
    (∀ (kvs : List (String × Json)) (blocks : List Json),
        _iter_jsonld_objects (.obj kvs :: blocks) =
          kvs :: (graphMembers kvs ++ _iter_jsonld_objects blocks)) ∧
    (∀ (kvs : List (String × Json)) (items : List Json),
        getKey? kvs "@graph" = some (.arr items) →
        graphMembers kvs =
          items.filterMap fun it =>
            match it with
            | .obj ikvs => some ikvs
            | _ => none) ∧
    parse_structured
        ⟨[.obj [("@context", .str "https://schema.org"),
                ("@graph", .arr [.obj [("@type", .str "WebSite")],
                                 .obj [("@type", .str "Recipe"), ("name", .str "G")]])]],
         [], []⟩ =
      .ok (some (.obj [("@type", .str "Recipe"), ("name", .str "G")])) := by
  refine ⟨?_, ?_, ?_, rfl⟩
  · intro bs blocks
    simp [_iter_jsonld_objects]
  · intro kvs blocks
    simp [_iter_jsonld_objects]
  · intro kvs items hg
    simp [graphMembers, hg]

/-- Witness for C5's graph-membership equation at a concrete object. -/
theorem c5_graph_flattening_witness :
    graphMembers [("@graph", .arr [.num 1, .obj [("@type", .str "Recipe")]])] =
      [[("@type", .str "Recipe")]] := by
  have := c5_graph_flattening.2.2.1
    [("@graph", .arr [.num 1, .obj [("@type", .str "Recipe")]])]
    [.num 1, .obj [("@type", .str "Recipe")]] rfl
  simpa using this


theorem filterMap_strip_eq (g : List Char → List Char) (ls : List (List Char)) :
    ((ls.filterMap fun l => if g l = [] then none else some (String.mk (g l))).filter
        fun t => t ≠ "") =
      ((ls.map fun l => String.mk (g l)).filter fun t => t ≠ "") := by
  have hmk : String.mk ([] : List Char) = "" := rfl
  induction ls with
  | nil => rfl
  | cons l ls ih =>
    simp only [List.filterMap_cons, List.map_cons]
    by_cases h : g l = []
    · rw [h, hmk]
      simp only [if_pos rfl, List.filter_cons]
      simp
      simpa using ih
    · have hne : String.mk (g l) ≠ "" := by
        rw [← hmk]; intro hc; exact h (by injection hc)
      rw [if_neg h]
      simp only [List.filter_cons]
      simp [hne]
      simpa using ih

/-- C6: instruction flattening splits a string on newlines into trimmed
non-empty lines in order; a `HowToSection` whose `itemListElement` holds
three `HowToStep` entries flattens to exactly those three texts in order;
unknown scalar shapes yield no steps. -/
theorem c6_instruction_flattening :
    (∀ s : String,
        _extract_instructions (.str s) =
          ((splitNlChars s.data).map fun l => String.mk (pyStripChars l)).filter
            (fun t => t ≠ "")) ∧
    (∀ t₁ t₂ t₃ : String, pyStrip t₁ ≠ "" → pyStrip t₂ ≠ "" → pyStrip t₃ ≠ "" →
        _extract_instructions
          (.arr [.obj [("@type", .str "HowToSection"),
                       ("itemListElement",
                        .arr [.obj [("@type", .str "HowToStep"), ("text", .str t₁)],
                              .obj [("@type", .str "HowToStep"), ("text", .str t₂)],
                              .obj [("@type", .str "HowToStep"), ("text", .str t₃)]])]]) =
          [pyStrip t₁, pyStrip t₂, pyStrip t₃]) ∧
    (∀ n : Int, _extract_instructions (.num n) = []) ∧
    (∀ b : Bool, _extract_instructions (.bool b) = []) ∧
    _extract_instructions .null = [] := by
  refine ⟨?_, ?_, fun n => rfl, fun b => rfl, rfl⟩
  · intro s
    show ((splitNlChars s.data).filterMap fun l =>
        if pyStripChars l = [] then none else some (String.mk (pyStripChars l))).filter
          (fun t => t ≠ "") = _
    exact filterMap_strip_eq pyStripChars (splitNlChars s.data)
  · intro t₁ t₂ t₃ h₁ h₂ h₃
    have e₁ : t₁ ≠ "" := fun ht => h₁ (by rw [ht]; rfl)
    have e₂ : t₂ ≠ "" := fun ht => h₂ (by rw [ht]; rfl)
    have e₃ : t₃ ≠ "" := fun ht => h₃ (by rw [ht]; rfl)
    have o : ∀ t : String, t ≠ "" → pyOr (Json.str t) Json.null = Json.str t := by
      intro t ht; simp [pyOr, truthy, ht]
    have a : ∀ t : String, pyStrip t ≠ "" → addText (Json.str t) = some (pyStrip t) := by
      intro t hst; simp [addText, pyStr, hst]
    show (List.filter (fun t => t ≠ "")
        ((List.filter (fun t => t ≠ "")
          ((addText (pyOr (Json.str t₁) Json.null)).toList ++
           ((addText (pyOr (Json.str t₂) Json.null)).toList ++
            ((addText (pyOr (Json.str t₃) Json.null)).toList ++ [])))) ++ [])) =
      [pyStrip t₁, pyStrip t₂, pyStrip t₃]
    rw [o t₁ e₁, o t₂ e₂, o t₃ e₃, a t₁ h₁, a t₂ h₂, a t₃ h₃]
    simp [h₁, h₂, h₃]

/-- Witness for C6 at three concrete step texts. -/
theorem c6_instruction_flattening_witness :
    _extract_instructions
      (.arr [.obj [("@type", .str "HowToSection"),
                   ("itemListElement",
                    .arr [.obj [("@type", .str "HowToStep"), ("text", .str " Mix ")],
                          .obj [("@type", .str "HowToStep"), ("text", .str "Bake")],
                          .obj [("@type", .str "HowToStep"), ("text", .str "Serve")]])]]) =
      ["Mix", "Bake", "Serve"] := by
  have := c6_instruction_flattening.2.1 " Mix " "Bake" "Serve"
    (by decide) (by decide) (by decide)
  simpa [show pyStrip " Mix " = "Mix" from by decide,
         show pyStrip "Bake" = "Bake" from by decide,
         show pyStrip "Serve" = "Serve" from by decide] using this

theorem normalize_recipe_ok_shape (obj : List (String × Json)) (url : String) (r : Json)
    (h : normalize_recipe obj url = .ok r) :
    ∃ (t₀ : String) (ingredients : List String) (prep cook total : Option Nat),
      titleSource obj = .str t₀ ∧
      _as_text_list (ingredientSource obj) = .ok ingredients ∧
      _minutes (pyGet obj "prepTime") = .ok prep ∧
      _minutes (pyGet obj "cookTime") = .ok cook ∧
      _minutes (pyGet obj "totalTime") = .ok total ∧
      r = deep_clean (.obj
        [("title", .str (pyStrip t₀)),
         ("description", pyOr (pyGet obj "description") .null),
         ("servings",
          if pyStr (pyOr (pyGet obj "recipeYield") (.str "")) = "" then Json.null
          else .str (pyStr (pyOr (pyGet obj "recipeYield") (.str "")))),
         ("prep_time_min", minutesJson prep),
         ("cook_time_min", minutesJson cook),
         ("total_time_min", minutesJson total),
         ("image_url", .null),
         ("ingredients", .arr ((ingredients.filter fun i => pyStrip i ≠ "").map Json.str)),
         ("steps", .arr (((_extract_instructions (pyGet obj "recipeInstructions")).filter
            fun st => pyStrip st ≠ "").map Json.str)),
         ("source_url", .str url),
         ("source_host", hostname url),
         ("extraction", .str "structured"),
         ("legal_note", .str LEGAL_NOTE)]) := by
  simp only [normalize_recipe, bind, Except.bind] at h
  cases hI : _as_text_list (pyOr (pyGet obj "recipeIngredient") (pyGet obj "ingredients")) with
  | error e => rw [hI] at h; simp at h
  | ok ingredients =>
    rw [hI] at h
    cases hT : pyOr (pyGet obj "name") (pyOr (pyGet obj "headline") (.str "Untitled")) with
    | null => rw [hT] at h; simp at h
    | bool b => rw [hT] at h; simp at h
    | num n => rw [hT] at h; simp at h
    | arr xs => rw [hT] at h; simp at h
    | obj kvs => rw [hT] at h; simp at h
    | str t₀ =>
      rw [hT] at h
      cases hP : _minutes (pyGet obj "prepTime") with
      | error e => rw [hP] at h; simp at h
      | ok prep =>
        rw [hP] at h
        cases hC : _minutes (pyGet obj "cookTime") with
        | error e => rw [hC] at h; simp at h
        | ok cook =>
          rw [hC] at h
          cases hTot : _minutes (pyGet obj "totalTime") with
          | error e => rw [hTot] at h; simp at h
          | ok total =>
            rw [hTot] at h
            simp only [pure, Except.pure, Except.ok.injEq] at h
            exact ⟨t₀, ingredients, prep, cook, total, hT, hI, rfl, rfl, rfl, h.symm⟩

/-- C10: both record builders emit an `image_url` key whose value is always
`None`. -/
theorem c10_image_url_always_none :
    (∀ (obj : List (String × Json)) (url : String) (r : Json),
        normalize_recipe obj url = .ok r → recGet r "image_url" = some .null) ∧
    (∀ (page : PageModel) (url : String),
        recGet (readability_fallback page url) "image_url" = some .null) := by
  constructor
  · intro obj url r h
    obtain ⟨t₀, ing, p, c, tt, _, _, _, _, _, hr⟩ := normalize_recipe_ok_shape obj url r h
    subst hr
    simp [deep_clean, recGet, getKey?_deepCleanKVs, getKey?]
  · intro page url
    simp [readability_fallback, deep_clean, recGet, getKey?_deepCleanKVs, getKey?]

/-- Witness for C10 on the empty structured object. -/
theorem c10_image_url_always_none_witness :
    recGet (.obj
      [("title", .str "Untitled"), ("description", .null), ("servings", .null),
       ("prep_time_min", .null), ("cook_time_min", .null), ("total_time_min", .null),
       ("image_url", .null), ("ingredients", .arr []), ("steps", .arr []),
       ("source_url", .str "https://e.com/"), ("source_host", .str "e.com"),
       ("extraction", .str "structured"), ("legal_note", .str LEGAL_NOTE)])
      "image_url" = some .null :=
  c10_image_url_always_none.1 [] "https://e.com/" _ rfl

/-- Counterexample to C9: the fallback record carries no `raw_json` key at
all (no record builder ever emits one). -/
theorem c9_counterexample :
    recGet (readability_fallback ⟨"T", [], []⟩ "https://e.com/") "raw_json" = none := rfl

/-- C9 amended: every record carries exactly the thirteen canonical keys in
source order (optional fields as absent values, never omitted keys), and
`raw_json` is never among them. -/
theorem c9_complete_field_set :
    (∀ (obj : List (String × Json)) (url : String) (r : Json),
        normalize_recipe obj url = .ok r →
        recKeys r = canonicalKeys ∧ recGet r "raw_json" = none) ∧
    (∀ (page : PageModel) (url : String),
        recKeys (readability_fallback page url) = canonicalKeys ∧
        recGet (readability_fallback page url) "raw_json" = none) := by
  constructor
  · intro obj url r h
    obtain ⟨t₀, ing, p, c, tt, _, _, _, _, _, hr⟩ := normalize_recipe_ok_shape obj url r h
    subst hr
    constructor
    · simp [deep_clean, recKeys, keys_deepCleanKVs, canonicalKeys]
    · simp [deep_clean, recGet, getKey?_deepCleanKVs, getKey?]
  · intro page url
    constructor
    · simp [readability_fallback, deep_clean, recKeys, keys_deepCleanKVs, canonicalKeys]
    · simp [readability_fallback, deep_clean, recGet, getKey?_deepCleanKVs, getKey?]

/-- Witness for C9 on the empty structured object. -/
theorem c9_complete_field_set_witness :
    recKeys (.obj
      [("title", .str "Untitled"), ("description", .null), ("servings", .null),
       ("prep_time_min", .null), ("cook_time_min", .null), ("total_time_min", .null),
       ("image_url", .null), ("ingredients", .arr []), ("steps", .arr []),
       ("source_url", .str "https://e.com/"), ("source_host", .str "e.com"),
       ("extraction", .str "structured"), ("legal_note", .str LEGAL_NOTE)]) =
      canonicalKeys :=
  (c9_complete_field_set.1 [] "https://e.com/" _ rfl).1

/-- C7: whenever no structured Recipe is found, the pipeline produces the
readability record: `extraction` is `"readability"`, the servings and all
three duration fields are absent, and ingredients and steps hold at most 50
entries each. -/
theorem c7_fallback_path :
    ∀ (data : ExtructData) (page : PageModel) (url : String),
      parse_structured data = .ok none →
      ∃ r, scrape data page url = .ok r ∧ r = readability_fallback page url ∧
        recGet r "extraction" = some (.str "readability") ∧
        recGet r "servings" = some .null ∧
        recGet r "prep_time_min" = some .null ∧
        recGet r "cook_time_min" = some .null ∧
        recGet r "total_time_min" = some .null ∧
        (∃ xs, recGet r "ingredients" = some (.arr xs) ∧ xs.length ≤ 50) ∧
        (∃ ys, recGet r "steps" = some (.arr ys) ∧ ys.length ≤ 50) := by
  intro data page url h
  refine ⟨readability_fallback page url, ?_, rfl, ?_, ?_, ?_, ?_, ?_, ?_, ?_⟩
  · simp [scrape, h, bind, Except.bind, pure, Except.pure]
  · simp [readability_fallback, deep_clean, recGet, getKey?_deepCleanKVs, getKey?,
          show clean_text "readability" = "readability" from by decide]
  · simp [readability_fallback, deep_clean, recGet, getKey?_deepCleanKVs, getKey?]
  · simp [readability_fallback, deep_clean, recGet, getKey?_deepCleanKVs, getKey?]
  · simp [readability_fallback, deep_clean, recGet, getKey?_deepCleanKVs, getKey?]
  · simp [readability_fallback, deep_clean, recGet, getKey?_deepCleanKVs, getKey?]
  · refine ⟨_, rfl, ?_⟩
    refine le_trans (length_deepCleanList_le _) ?_
    rw [List.length_map]
    exact List.length_take_le _ _
  · refine ⟨_, rfl, ?_⟩
    refine le_trans (length_deepCleanList_le _) ?_
    rw [List.length_map]
    exact List.length_take_le _ _

/-- Witness for C7 on a document with no structured data at all. -/
theorem c7_fallback_path_witness :
    scrape ⟨[], [], []⟩ ⟨"T", [], []⟩ "https://e.com/" =
      .ok (readability_fallback ⟨"T", [], []⟩ "https://e.com/") := by
  obtain ⟨r, hs, hr, _⟩ := c7_fallback_path ⟨[], [], []⟩ ⟨"T", [], []⟩ "https://e.com/" rfl
  rw [hs, hr]

/-- Counterexample to C1: a structured object whose `name` is a truthy
non-string makes `normalize_recipe` raise `AttributeError` at
`title.strip()` instead of degrading. -/
theorem c1_counterexample :
    normalize_recipe [("name", .num 5)] "https://example.com/r" =
      .error "AttributeError: strip" := rfl

theorem stripTruthyList_ok (js : List Json) (h : js.all strOrFalsy = true) :
    ∃ l, stripTruthyList js = .ok l := by
  induction js with
  | nil => exact ⟨[], rfl⟩
  | cons s rest ih =>
    rw [List.all_cons, Bool.and_eq_true] at h
    obtain ⟨l, hl⟩ := ih h.2
    by_cases hc : (truthy s && decide (pyStrip (pyStr s) ≠ "")) = true
    · cases s with
      | str t =>
        refine ⟨pyStrip t :: l, ?_⟩
        simp only [stripTruthyList]
        rw [if_pos hc, hl]
        rfl
      | null => simp [truthy] at hc
      | bool b =>
        rw [Bool.and_eq_true] at hc
        have hb := h.1
        simp only [strOrFalsy] at hb
        rw [hc.1] at hb
        simp at hb
      | num n =>
        rw [Bool.and_eq_true] at hc
        have hb := h.1
        simp only [strOrFalsy] at hb
        rw [hc.1] at hb
        simp at hb
      | arr xs =>
        rw [Bool.and_eq_true] at hc
        have hb := h.1
        simp only [strOrFalsy] at hb
        rw [hc.1] at hb
        simp at hb
      | obj kvs =>
        rw [Bool.and_eq_true] at hc
        have hb := h.1
        simp only [strOrFalsy] at hb
        rw [hc.1] at hb
        simp at hb
    · refine ⟨l, ?_⟩
      simp only [stripTruthyList]
      rw [if_neg hc]
      exact hl

theorem minutes_ok (v : Json) (h : strOrFalsy v = true) :
    ∃ o, _minutes v = .ok o := by
  cases v with
  | str s =>
    cases hm : _minutes (Json.str s) with
    | ok o => exact ⟨o, rfl⟩
    | error e =>
      exfalso
      unfold _minutes at hm
      split at hm
      · exact Except.noConfusion hm
      · rcases hq : parseIsoDur (pyStrip s) with _ | ⟨d, hh, m, sec⟩
        · rcases hh2 : matchHumanDur (pyStrip s) with ⟨dd, hhh, mm⟩
          simp only [hq, hh2] at hm
          exact Except.noConfusion hm
        · simp only [hq] at hm
          exact Except.noConfusion hm
  | null => exact ⟨none, rfl⟩
  | bool b =>
    simp only [strOrFalsy] at h
    exact ⟨none, by simp [_minutes, h]⟩
  | num n =>
    simp only [strOrFalsy] at h
    exact ⟨none, by simp [_minutes, h]⟩
  | arr xs =>
    simp only [strOrFalsy] at h
    exact ⟨none, by simp [_minutes, h]⟩
  | obj kvs =>
    simp only [strOrFalsy] at h
    exact ⟨none, by simp [_minutes, h]⟩

theorem titleSource_str (obj : List (String × Json))
    (h : strOrFalsy (titleSource obj) = true) :
    ∃ t₀, titleSource obj = .str t₀ := by
  unfold titleSource pyOr at h ⊢
  by_cases hn : truthy (pyGet obj "name") = true
  · rw [if_pos hn] at h ⊢
    cases hv : pyGet obj "name" with
    | str t => exact ⟨t, rfl⟩
    | null => rw [hv] at hn; simp [truthy] at hn
    | bool b =>
      rw [hv] at h hn
      simp only [strOrFalsy] at h
      simp [truthy] at hn
      simp [truthy, hn] at h
    | num n =>
      rw [hv] at h hn
      simp only [strOrFalsy] at h
      simp [truthy] at hn
      simp [truthy, hn] at h
    | arr xs =>
      rw [hv] at h hn
      simp only [strOrFalsy] at h
      simp [truthy] at hn
      simp [truthy, hn] at h
    | obj kvs =>
      rw [hv] at h hn
      simp only [strOrFalsy] at h
      simp [truthy] at hn
      simp [truthy, hn] at h
  · rw [if_neg hn] at h ⊢
    by_cases hh : truthy (pyGet obj "headline") = true
    · rw [if_pos hh] at h ⊢
      cases hv : pyGet obj "headline" with
      | str t => exact ⟨t, rfl⟩
      | null => rw [hv] at hh; simp [truthy] at hh
      | bool b =>
        rw [hv] at h hh
        simp only [strOrFalsy] at h
        simp [truthy] at hh
        simp [truthy, hh] at h
      | num n =>
        rw [hv] at h hh
        simp only [strOrFalsy] at h
        simp [truthy] at hh
        simp [truthy, hh] at h
      | arr xs =>
        rw [hv] at h hh
        simp only [strOrFalsy] at h
        simp [truthy] at hh
        simp [truthy, hh] at h
      | obj kvs =>
        rw [hv] at h hh
        simp only [strOrFalsy] at h
        simp [truthy] at hh
        simp [truthy, hh] at h
    · rw [if_neg hh] at h ⊢
      exact ⟨"Untitled", by simp [truthy]⟩

/-- C1 amended: `normalize_recipe` is total (returns a record, never
raises) provided that the selected name/headline value is a string, every
collected ingredient entry is a string or falsy, and each duration field is
a string or falsy; all other shape irregularities degrade to absent or
empty values.  (A truthy non-string in any of those places raises
`AttributeError` in the source, as the counterexample shows.) -/
theorem c1_normalization_total :
    ∀ (obj : List (String × Json)) (url : String),
      strOrFalsy (titleSource obj) = true →
      textListSafe (ingredientSource obj) = true →
      strOrFalsy (pyGet obj "prepTime") = true →
      strOrFalsy (pyGet obj "cookTime") = true →
      strOrFalsy (pyGet obj "totalTime") = true →
      ∃ r, normalize_recipe obj url = .ok r := by
  intro obj url hTitle hIng hP hC hT
  obtain ⟨ing, hI⟩ := stripTruthyList_ok _ hIng
  have hI2 : _as_text_list (pyOr (pyGet obj "recipeIngredient") (pyGet obj "ingredients")) =
      .ok ing := hI
  obtain ⟨t₀, hT0⟩ := titleSource_str obj hTitle
  have hT02 : pyOr (pyGet obj "name") (pyOr (pyGet obj "headline") (.str "Untitled")) =
      .str t₀ := hT0
  obtain ⟨p, hp⟩ := minutes_ok _ hP
  obtain ⟨c, hc⟩ := minutes_ok _ hC
  obtain ⟨t, ht⟩ := minutes_ok _ hT
  refine ⟨deep_clean (.obj
    [("title", .str (pyStrip t₀)),
     ("description", pyOr (pyGet obj "description") .null),
     ("servings",
      if pyStr (pyOr (pyGet obj "recipeYield") (.str "")) = "" then Json.null
      else .str (pyStr (pyOr (pyGet obj "recipeYield") (.str "")))),
     ("prep_time_min", minutesJson p),
     ("cook_time_min", minutesJson c),
     ("total_time_min", minutesJson t),
     ("image_url", .null),
     ("ingredients", .arr ((ing.filter fun i => pyStrip i ≠ "").map Json.str)),
     ("steps", .arr (((_extract_instructions (pyGet obj "recipeInstructions")).filter
        fun st => pyStrip st ≠ "").map Json.str)),
     ("source_url", .str url),
     ("source_host", hostname url),
     ("extraction", .str "structured"),
     ("legal_note", .str LEGAL_NOTE)]), ?_⟩
  simp only [normalize_recipe, bind, Except.bind, hI2, hT02, hp, hc, ht,
    pure, Except.pure]

/-- Witness for C1 on a well-shaped structured object. -/
theorem c1_normalization_total_witness :
    (normalize_recipe
      [("name", .str "Cake"),
       ("recipeIngredient", .arr [.str "1 cup flour", .obj [("text", .str "2 eggs")]]),
       ("prepTime", .str "PT10M"),
       ("recipeInstructions", .arr [.obj [("text", .str "Mix")]])]
      "https://e.com/").isOk = true := by
  obtain ⟨r, hr⟩ := c1_normalization_total
    [("name", .str "Cake"),
     ("recipeIngredient", .arr [.str "1 cup flour", .obj [("text", .str "2 eggs")]]),
     ("prepTime", .str "PT10M"),
     ("recipeInstructions", .arr [.obj [("text", .str "Mix")]])]
    "https://e.com/" rfl rfl rfl rfl rfl
  rw [hr]
  rfl

theorem dropWhile_head_false (p : Char → Bool) (cs : List Char) :
    ∀ d t, cs.dropWhile p = d :: t → p d = false := by
  induction cs with
  | nil => intro d t h; exact absurd h (by simp)
  | cons c rest ih =>
    intro d t h
    rw [List.dropWhile_cons] at h
    by_cases hc : p c = true
    · rw [if_pos hc] at h
      exact ih d t h
    · rw [if_neg hc] at h
      cases h
      exact Bool.not_eq_true _ |>.mp hc

theorem dropTrailingSpace_isPrefixOf (xs : List Char) :
    dropTrailingSpace xs <+: xs := by
  have h : xs.reverse.dropWhile pyIsSpace <:+ xs.reverse :=
    List.dropWhile_suffix pyIsSpace
  have h2 : (dropTrailingSpace xs).reverse <:+ xs.reverse := by
    simpa [dropTrailingSpace] using h
  exact List.reverse_suffix.mp h2

theorem pyStripChars_head_false (cs : List Char) (d : Char) (t : List Char)
    (h : pyStripChars cs = d :: t) : pyIsSpace d = false := by
  unfold pyStripChars at h
  obtain ⟨rest, hrest⟩ := dropTrailingSpace_isPrefixOf (cs.dropWhile pyIsSpace)
  rw [h] at hrest
  exact dropWhile_head_false pyIsSpace cs d (t ++ rest) hrest.symm

theorem mk_strip_nonempty_any (u : List Char) (h : String.mk (pyStripChars u) ≠ "") :
    (String.mk (pyStripChars u)).data.any (fun c => !pyIsSpace c) := by
  cases hs : pyStripChars u with
  | nil => exact absurd (by rw [hs]) h
  | cons d t =>
    have := pyStripChars_head_false u d t hs
    simp [this]

theorem clean_text_nonempty_any (s : String) (h : clean_text s ≠ "") :
    (clean_text s).data.any (fun c => !pyIsSpace c) :=
  mk_strip_nonempty_any _ h

theorem deepCleanList_str_entries (strs : List String) :
    ∀ j ∈ deepCleanList (strs.map Json.str),
      ∃ t : String, j = .str t ∧ t.data.any (fun c => !pyIsSpace c) := by
  induction strs with
  | nil => intro j hj; exact absurd hj (by simp [deepCleanList])
  | cons y rest ih =>
    intro j hj
    simp only [List.map_cons, deepCleanList, deep_clean] at hj
    by_cases hy : clean_text y = ""
    · rw [if_pos hy] at hj
      exact ih j hj
    · rw [if_neg hy, List.mem_cons] at hj
      rcases hj with hj | hj
      · exact ⟨clean_text y, hj, clean_text_nonempty_any y hy⟩
      · exact ih j hj

/-- Counterexample to C8: a whitespace-only `name` is truthy, so it is
selected over the `"Untitled"` default and then trimmed to the empty
string: the produced record's title is `""`, not a non-empty string. -/
theorem c8_counterexample :
    Except.map (fun r => recGet r "title")
      (normalize_recipe [("name", .str "   ")] "https://example.com/") =
    .ok (some (.str "")) := rfl

/-- C8 amended: in every record of either path, the title is the sanitized
trim of the first truthy of name/headline (default `"Untitled"`), so it can
be empty only when that value cleans to the empty string; and ingredients
and steps contain no empty or whitespace-only entries after sanitization. -/
theorem c8_record_well_formed :
    (∀ (obj : List (String × Json)) (url : String) (r : Json),
        normalize_recipe obj url = .ok r →
        (∃ t₀, titleSource obj = .str t₀ ∧
          recGet r "title" = some (.str (clean_text (pyStrip t₀)))) ∧
        entriesClean (recGet r "ingredients") ∧
        entriesClean (recGet r "steps")) ∧
    (∀ (page : PageModel) (url : String),
        recGet (readability_fallback page url) "title" =
          some (.str (clean_text (pyStrip
            (if page.shortTitle = "" then "Untitled" else page.shortTitle)))) ∧
        entriesClean (recGet (readability_fallback page url) "ingredients") ∧
        entriesClean (recGet (readability_fallback page url) "steps")) := by
  constructor
  · intro obj url r h
    obtain ⟨t₀, ing, p, c, tt, hT0, _, _, _, _, hr⟩ := normalize_recipe_ok_shape obj url r h
    subst hr
    refine ⟨⟨t₀, hT0, rfl⟩, ⟨_, rfl, deepCleanList_str_entries _⟩,
      ⟨_, rfl, deepCleanList_str_entries _⟩⟩
  · intro page url
    refine ⟨rfl, ⟨_, rfl, deepCleanList_str_entries _⟩,
      ⟨_, rfl, deepCleanList_str_entries _⟩⟩

/-- Witness for C8 on a concrete structured object with a padded name. -/
theorem c8_record_well_formed_witness :
    recGet (.obj
      [("title", .str "Cake"), ("description", .null), ("servings", .null),
       ("prep_time_min", .null), ("cook_time_min", .null), ("total_time_min", .null),
       ("image_url", .null), ("ingredients", .arr []), ("steps", .arr []),
       ("source_url", .str "https://e.com/"), ("source_host", .str "e.com"),
       ("extraction", .str "structured"), ("legal_note", .str LEGAL_NOTE)])
      "title" = some (.str "Cake") := by
  obtain ⟨⟨t₀, ht, htt⟩, _, _⟩ := c8_record_well_formed.1
    [("name", .str " Cake ")] "https://e.com/" _ rfl
  have ht' : Json.str " Cake " = Json.str t₀ := ht
  injection ht' with he
  subst he
  rw [show clean_text (pyStrip " Cake ") = "Cake" from by decide] at htt
  exact htt

theorem unescGo_no_amp (fuel : Nat) (cs : List Char)
    (h : cs.contains '&' = false) : unescGo fuel cs = cs := by
  induction fuel generalizing cs with
  | zero => rfl
  | succ fuel ih =>
    cases cs with
    | nil => rfl
    | cons c rest =>
      rw [List.contains_cons, Bool.or_eq_false_iff] at h
      have hc : ¬c = '&' := by
        intro hc
        subst hc
        simp at h
      simp only [unescGo, if_neg hc]
      rw [ih rest h.2]

theorem unescapeChars_no_amp (cs : List Char) (h : cs.contains '&' = false) :
    unescapeChars cs = cs :=
  unescGo_no_amp cs.length cs h

theorem mem_pyStripChars (c : Char) (l : List Char) (h : c ∈ pyStripChars l) : c ∈ l := by
  unfold pyStripChars at h
  have h1 : c ∈ l.dropWhile pyIsSpace :=
    (dropTrailingSpace_isPrefixOf (l.dropWhile pyIsSpace)).subset h
  exact (List.dropWhile_suffix pyIsSpace).subset h1

theorem mem_collapseGo (c : Char) (b : Bool) (l : List Char)
    (h : c ∈ collapseGo b l) : c = ' ' ∨ c ∈ l := by
  induction l generalizing b with
  | nil => exact absurd h (by simp [collapseGo])
  | cons d rest ih =>
    by_cases hd : isHWs d = true
    · cases b with
      | true =>
        simp only [collapseGo, if_pos hd] at h
        rcases ih true h with h' | h'
        · exact Or.inl h'
        · exact Or.inr (List.mem_cons_of_mem d h')
      | false =>
        simp only [collapseGo, if_pos hd] at h
        rcases List.mem_cons.mp h with h' | h'
        · exact Or.inl h'
        · rcases ih true h' with h'' | h''
          · exact Or.inl h''
          · exact Or.inr (List.mem_cons_of_mem d h'')
    · simp only [collapseGo, if_neg hd] at h
      rcases List.mem_cons.mp h with h' | h'
      · exact Or.inr (h' ▸ List.mem_cons_self d rest)
      · rcases ih false h' with h'' | h''
        · exact Or.inl h''
        · exact Or.inr (List.mem_cons_of_mem d h'')

theorem mem_replaceNbsp (c : Char) (l : List Char)
    (h : c ∈ replaceNbspChars l) : c = ' ' ∨ c ∈ l := by
  unfold replaceNbspChars at h
  rcases List.mem_map.mp h with ⟨d, hd, hc⟩
  by_cases hnb : d = '\u00a0'
  · rw [hnb, if_pos rfl] at hc
    exact Or.inl hc.symm
  · rw [if_neg hnb] at hc
    exact Or.inr (hc ▸ hd)

theorem not_nbsp_replaceNbsp (c : Char) (l : List Char)
    (h : c ∈ replaceNbspChars l) : ¬c = '\u00a0' := by
  unfold replaceNbspChars at h
  rcases List.mem_map.mp h with ⟨d, hd, hc⟩
  by_cases hnb : d = '\u00a0'
  · rw [hnb, if_pos rfl] at hc
    rw [← hc]
    decide
  · rw [if_neg hnb] at hc
    rw [← hc]
    exact hnb

theorem not_zw_removeZeroWidth (c : Char) (l : List Char)
    (h : c ∈ removeZeroWidthChars l) : isZeroWidth c = false := by
  unfold removeZeroWidthChars at h
  have := List.of_mem_filter h
  simpa using this

/-- Heads that are not horizontal whitespace (shape of `collapseGo true`
output). -/
def HeadOk (xs : List Char) : Prop :=
  ∀ d t, xs = d :: t → isHWs d = false

theorem collapseGo_false_hws (c : Char) (rest : List Char) (hd : isHWs c = true) :
    collapseGo false (c :: rest) = ' ' :: collapseGo true rest := by
  simp [collapseGo, hd]

theorem collapseGo_true_hws (c : Char) (rest : List Char) (hd : isHWs c = true) :
    collapseGo true (c :: rest) = collapseGo true rest := by
  simp [collapseGo, hd]

theorem collapseGo_not_hws (b : Bool) (c : Char) (rest : List Char)
    (hd : isHWs c = false) : collapseGo b (c :: rest) = c :: collapseGo false rest := by
  simp [collapseGo, hd]

theorem collapseGo_good (l : List Char) :
    GoodWs (collapseGo false l) ∧
      (GoodWs (collapseGo true l) ∧ HeadOk (collapseGo true l)) := by
  induction l with
  | nil =>
    refine ⟨⟨?_, ?_⟩, ⟨?_, ?_⟩, ?_⟩ <;> simp [collapseGo, HeadOk]
  | cons c rest ih =>
    obtain ⟨⟨hfm, hfc⟩, ⟨htm, htc⟩, hth⟩ := ih
    by_cases hd : isHWs c = true
    · refine ⟨⟨?_, ?_⟩, ⟨?_, ?_⟩, ?_⟩
      · intro x hx hxh
        rw [collapseGo_false_hws c rest hd] at hx
        rcases List.mem_cons.mp hx with h' | h'
        · exact h'
        · exact htm x h' hxh
      · rw [collapseGo_false_hws c rest hd, List.chain'_cons']
        refine ⟨?_, htc⟩
        intro y hy
        cases hcg : collapseGo true rest with
        | nil => rw [hcg] at hy; simp at hy
        | cons d' t' =>
          rw [hcg] at hy
          simp at hy
          subst hy
          have := hth d' t' hcg
          intro hcon
          rw [hcon.2] at this
          simp [isHWs] at this
      · intro x hx hxh
        rw [collapseGo_true_hws c rest hd] at hx
        exact htm x hx hxh
      · rw [collapseGo_true_hws c rest hd]
        exact htc
      · intro d' t' hdt
        rw [collapseGo_true_hws c rest hd] at hdt
        exact hth d' t' hdt
    · rw [Bool.not_eq_true] at hd
      have hgw1 : ∀ x ∈ c :: collapseGo false rest, isHWs x = true → x = ' ' := by
        intro x hx hxh
        rcases List.mem_cons.mp hx with h' | h'
        · rw [h'] at hxh; exact absurd hxh (by simp [hd])
        · exact hfm x h' hxh
      have hgw2 : List.Chain' (fun a b => ¬(a = ' ' ∧ b = ' '))
          (c :: collapseGo false rest) := by
        rw [List.chain'_cons']
        refine ⟨?_, hfc⟩
        intro y hy hcon
        rw [hcon.1] at hd
        simp [isHWs] at hd
      refine ⟨⟨?_, ?_⟩, ⟨?_, ?_⟩, ?_⟩
      · intro x hx hxh
        rw [collapseGo_not_hws false c rest hd] at hx
        exact hgw1 x hx hxh
      · rw [collapseGo_not_hws false c rest hd]
        exact hgw2
      · intro x hx hxh
        rw [collapseGo_not_hws true c rest hd] at hx
        exact hgw1 x hx hxh
      · rw [collapseGo_not_hws true c rest hd]
        exact hgw2
      · intro d' t' hdt
        rw [collapseGo_not_hws true c rest hd] at hdt
        cases hdt
        exact hd

theorem collapseGo_fix (l : List Char) (h : GoodWs l) :
    collapseGo false l = l ∧ (HeadOk l → collapseGo true l = l) := by
  induction l with
  | nil => exact ⟨rfl, fun _ => rfl⟩
  | cons c rest ih =>
    have hrest : GoodWs rest :=
      ⟨fun x hx => h.1 x (List.mem_cons_of_mem c hx), (List.chain'_cons'.mp h.2).2⟩
    obtain ⟨ihf, iht⟩ := ih hrest
    by_cases hd : isHWs c = true
    · have hc : c = ' ' := h.1 c (List.mem_cons_self c rest) hd
      have hHead : HeadOk rest := by
        intro d t hdt
        have hR := (List.chain'_cons'.mp h.2).1 d (by rw [hdt]; rfl)
        by_contra hcon
        rw [Bool.not_eq_false] at hcon
        have hd' : d = ' ' :=
          h.1 d (by rw [hdt]; exact List.mem_cons_of_mem c (List.mem_cons_self d t)) hcon
        exact hR ⟨hc, hd'⟩
      constructor
      · rw [collapseGo_false_hws c rest hd, iht hHead, hc]
      · intro hHl
        exact absurd (hHl c rest rfl) (by simp [hd])
    · rw [Bool.not_eq_true] at hd
      constructor
      · rw [collapseGo_not_hws false c rest hd, ihf]
      · intro hHl
        rw [collapseGo_not_hws true c rest hd, ihf]

theorem goodWs_pyStripChars (l : List Char) (h : GoodWs l) : GoodWs (pyStripChars l) := by
  constructor
  · intro x hx hxh
    exact h.1 x (mem_pyStripChars x l hx) hxh
  · have h1 : List.Chain' (fun a b => ¬(a = ' ' ∧ b = ' ')) (l.dropWhile pyIsSpace) :=
      h.2.suffix (List.dropWhile_suffix pyIsSpace)
    exact h1.prefix (dropTrailingSpace_isPrefixOf (l.dropWhile pyIsSpace))

theorem dropWhile_eq_self_head (p : Char → Bool) (xs : List Char)
    (h : ∀ d t, xs = d :: t → p d = false) : xs.dropWhile p = xs := by
  cases xs with
  | nil => rfl
  | cons d t =>
    rw [List.dropWhile_cons, if_neg]
    rw [h d t rfl]
    simp

theorem pyStripChars_idem (u : List Char) :
    pyStripChars (pyStripChars u) = pyStripChars u := by
  have hHead : ∀ d t, pyStripChars u = d :: t → pyIsSpace d = false :=
    fun d t h => pyStripChars_head_false u d t h
  have h1 : (pyStripChars u).dropWhile pyIsSpace = pyStripChars u :=
    dropWhile_eq_self_head pyIsSpace (pyStripChars u) hHead
  have hwrev : (pyStripChars u).reverse =
      (u.dropWhile pyIsSpace).reverse.dropWhile pyIsSpace := by
    show (dropTrailingSpace (u.dropWhile pyIsSpace)).reverse = _
    unfold dropTrailingSpace
    rw [List.reverse_reverse]
  have h2 : dropTrailingSpace (pyStripChars u) = pyStripChars u := by
    unfold dropTrailingSpace
    have h3 : (pyStripChars u).reverse.dropWhile pyIsSpace = (pyStripChars u).reverse := by
      apply dropWhile_eq_self_head
      intro d t h
      rw [hwrev] at h
      exact dropWhile_head_false pyIsSpace ((u.dropWhile pyIsSpace).reverse) d t h
    rw [h3, List.reverse_reverse]
  show dropTrailingSpace ((pyStripChars u).dropWhile pyIsSpace) = pyStripChars u
  rw [h1, h2]

theorem clean_tail_fix (X D : List Char)
    (hD : D = pyStripChars (collapseChars (replaceNbspChars (removeZeroWidthChars X))))
    (hamp : D.contains '&' = false)
    (hlt : (D.contains '<' && D.contains '>') = false)
    (hnfc : nfcChars D = D) :
    clean_text (String.mk D) = String.mk D := by
  have hmemD : ∀ c ∈ D, (isZeroWidth c = false) ∧ ¬c = '\u00a0' := by
    intro c hc
    rw [hD] at hc
    have hc1 := mem_pyStripChars c _ hc
    rcases mem_collapseGo c false _ hc1 with h' | h'
    · subst h'
      exact ⟨by decide, by decide⟩
    · constructor
      · rcases mem_replaceNbsp c _ h' with h'' | h''
        · subst h''
          decide
        · exact not_zw_removeZeroWidth c _ h''
      · exact not_nbsp_replaceNbsp c _ h'
  have e1 : unescapeChars D = D := unescapeChars_no_amp D hamp
  have e2 : strip_html_tags (String.mk D) = String.mk D := by
    simp only [strip_html_tags,
      show ((String.mk D).data.contains '<' && (String.mk D).data.contains '>') = false
        from hlt,
      Bool.false_eq_true, if_false]
  have e4 : removeZeroWidthChars D = D := by
    unfold removeZeroWidthChars
    apply List.filter_eq_self.mpr
    intro a ha
    simp [(hmemD a ha).1]
  have e5 : replaceNbspChars D = D := by
    unfold replaceNbspChars
    have hmap : ∀ a ∈ D, (if a = '\u00a0' then ' ' else a) = id a := by
      intro a ha
      rw [if_neg (hmemD a ha).2]
      rfl
    rw [List.map_congr_left hmap, List.map_id]
  have hG : GoodWs D := by
    rw [hD]
    exact goodWs_pyStripChars _ (collapseGo_good _).1
  have e6 : collapseChars D = D := by
    unfold collapseChars
    exact (collapseGo_fix D hG).1
  have e7 : pyStripChars D = D := by
    rw [hD]
    exact pyStripChars_idem _
  show String.mk (pyStripChars (collapseChars (replaceNbspChars (removeZeroWidthChars
      (nfcChars ((strip_html_tags (String.mk (unescapeChars D))).data)))))) = String.mk D
  rw [e1, e2]
  show String.mk (pyStripChars (collapseChars (replaceNbspChars (removeZeroWidthChars
      (nfcChars D))))) = String.mk D
  rw [hnfc, e4, e5, e6, e7]

/-- Counterexample to C2: `clean_text` is not idempotent, because HTML
unescaping happens again on the second pass; `"&amp;amp;"` cleans to
`"&amp;"` once and to `"&"` twice. -/
theorem c2_counterexample :
    clean_text (clean_text "&amp;amp;") ≠ clean_text "&amp;amp;" := by decide

/-- C2 amended: `clean_text` is idempotent on every string whose cleaned
form contains no ampersand (no entity to unescape again), does not contain
both angle brackets (no tag stripping again), and is a fixed point of NFC
composition (nothing left to compose after zero-width removal): the three
re-entrant stages of the pipeline.  The remaining stages (zero-width and
non-breaking-space removal, whitespace collapsing, trimming) are always
idempotent on cleaned output. -/
theorem c2_clean_text_idempotent :
    ∀ s : String,
      (clean_text s).data.contains '&' = false →
      ((clean_text s).data.contains '<' && (clean_text s).data.contains '>') = false →
      nfcChars (clean_text s).data = (clean_text s).data →
      clean_text (clean_text s) = clean_text s := by
  intro s h1 h2 h3
  have hD : (clean_text s).data = pyStripChars (collapseChars (replaceNbspChars
      (removeZeroWidthChars (nfcChars ((strip_html_tags (String.mk
        (unescapeChars s.data))).data))))) := rfl
  exact clean_tail_fix _ (clean_text s).data hD h1 h2 h3

/-- Witness for C2 on a plain string with doubled internal spaces. -/
theorem c2_clean_text_idempotent_witness :
    clean_text (clean_text "hello  world") = clean_text "hello  world" :=
  c2_clean_text_idempotent "hello  world" (by decide) (by decide) (by decide)
